import Mathlib

/-!
Shallow embedding of the dexie-kit-sync synchronization core.

Each definition below is translated from the repository's TypeScript
source.  JavaScript values that may be `undefined` become `Option`;
JavaScript truthiness tests on numbers (`if (x)`) are translated as
`x ≠ 0` on the wrapped value; machine numbers are modelled as `Nat`,
`Int` or `ℚ` as appropriate.
-/

/-- `Operation` from `src/core/types.ts`: `'create' | 'update' | 'delete'`. -/
inductive Operation where
  | create
  | update
  | delete
deriving DecidableEq, Repr

/-- A record held in a user table.  `version` and `updatedAt` are the two
optional metadata fields consulted by `ConflictResolver.detectConflict`;
`id` is the primary key; `data` stands for the rest of the payload. -/
structure Rec where
  id : Nat
  version : Option Int
  updatedAt : Option Nat
  data : Nat
deriving DecidableEq, Repr

/-- `ConflictInfo` from `src/core/types.ts` (field `local`/`remote` renamed
to `localRec`/`remoteRec` because `local` is a Lean keyword). -/
structure ConflictInfo where
  table : String
  key : Nat
  localRec : Rec
  remoteRec : Rec
  localTimestamp : Option Nat
  remoteTimestamp : Option Nat
  localVersion : Option Int
  remoteVersion : Option Int

/-- Conflict configuration: at runtime the `policy` is a string
(`'server-wins' | 'client-wins' | 'lww' | 'custom'` in the type, any
string once type safety is bypassed); `onConflict` is the optional
user-supplied resolver. -/
structure ConflictConfig where
  policy : String
  onConflict : Option (ConflictInfo → Rec)

/-- `serverWins` from `src/conflict/strategies.ts`. -/
def serverWins (conflict : ConflictInfo) : Rec :=
  conflict.remoteRec

/-- `clientWins` from `src/conflict/strategies.ts`. -/
def clientWins (conflict : ConflictInfo) : Rec :=
  conflict.localRec

/-- `lastWriteWins` from `src/conflict/strategies.ts`:
`localTime = conflict.localTimestamp || 0` (and likewise for remote),
larger timestamp wins, server preferred on a tie. -/
def lastWriteWins (conflict : ConflictInfo) : Rec :=
  let localTime := conflict.localTimestamp.getD 0
  let remoteTime := conflict.remoteTimestamp.getD 0
  if remoteTime < localTime then
    conflict.localRec
  else if localTime < remoteTime then
    conflict.remoteRec
  else
    conflict.remoteRec

/-- `getStrategy` from `src/conflict/strategies.ts`: a switch over the
policy string whose `default` branch is `serverWins`. -/
def getStrategy (policy : String) : ConflictInfo → Rec :=
  if policy = "server-wins" then serverWins
  else if policy = "client-wins" then clientWins
  else if policy = "lww" then lastWriteWins
  else serverWins

/-- `ConflictResolver.resolve` from `src/conflict/resolver.ts`: the custom
resolver is used only when the policy is `'custom'` AND a handler is
configured; otherwise the built-in strategy selected by `getStrategy`
runs.  (The `conflict` observability event emitted first does not affect
the returned value and is not modelled here.) -/
def resolve (config : ConflictConfig) (conflict : ConflictInfo) : Rec :=
  match config.onConflict with
  | some f => if config.policy = "custom" then f conflict else getStrategy config.policy conflict
  | none => getStrategy config.policy conflict

/-- `ConflictResolver.detectConflict` from `src/conflict/resolver.ts`.
`local` is `Option Rec` (`if (!local) return false`).  The version test
is `!== undefined` on both sides; the timestamp test is JavaScript
truthiness (`if (local.updatedAt && remote.updatedAt)`), so an
`updatedAt` equal to `0` does NOT enter the timestamp comparison. -/
def detectConflict (localRec : Option Rec) (remote : Rec) : Bool :=
  match localRec with
  | none => false
  | some l =>
    match l.version, remote.version with
    | some lv, some rv => lv ≠ rv
    | _, _ =>
      match l.updatedAt, remote.updatedAt with
      | some lt, some rt => if lt ≠ 0 ∧ rt ≠ 0 then lt ≠ rt else true
      | _, _ => true

/-- `calculateBackoff` from `src/utils/backoff.ts`, with the random draw
`r` (the value of `Math.random()`, ranging over `[0,1)`) made an explicit
input:
`delay = min(1000 * 2^attempt, maxDelay)`;
`jitter = delay * 0.2 * (r - 0.5)`;
result `= Math.floor(delay + jitter)`. -/
def calculateBackoff (attempt : Nat) (r : ℚ) (maxDelay : ℚ := 60000) : ℤ :=
  let delay : ℚ := min (1000 * 2 ^ attempt) maxDelay
  let jitter : ℚ := delay * (1/5) * (r - 1/2)
  ⌊delay + jitter⌋

/-- Modelled from the spec: the delay formula the specification states for
the backoff, `min(base * 2^attempt, maxDelay) * (1 ± 0.2 random)`, i.e.
`min(1000 * 2^n, 60000) * (1 + 0.2 * (2r - 1))` for `r ∈ [0,1]`, floored
to an integer.  Kept separate from `calculateBackoff` (which is the code)
so the two can be compared. -/
def specBackoff (attempt : Nat) (r : ℚ) : ℤ :=
  let delay : ℚ := min (1000 * 2 ^ attempt) 60000
  ⌊delay * (1 + (1/5) * (2 * r - 1))⌋

/-- `OutboxItem` from `src/core/types.ts`.  Keys are modelled as `Nat`. -/
structure OutboxItem where
  id : Nat
  table : String
  operation : Operation
  key : Nat
  obj : Option Nat
  attempt : Nat
  createdAt : Nat
  lastError : Option String
  nextRetryAt : Option Nat
deriving DecidableEq, Repr

/-- `DeadLetterItem` from `src/core/types.ts`. -/
structure DeadLetterItem where
  table : String
  operation : Operation
  key : Nat
  obj : Option Nat
  error : String
  errorType : String
  failedAt : Nat
  originalAttempts : Nat
deriving DecidableEq, Repr

/-- The classified error the transport surfaces (`SyncError` in
`src/core/types.ts`): a kind string, a message, and the retryable flag. -/
structure SyncErr where
  type : String
  message : String
  retryable : Bool
deriving DecidableEq, Repr

/-- `PushResult` from `src/core/types.ts`. -/
structure PushResult where
  success : Bool
  pushed : Nat
  failed : Nat
  errors : List SyncErr
deriving DecidableEq, Repr

/-- The two sync-metadata stores the push pipeline touches: the outbox
table and the dead-letter table, each modelled as the list of its rows. -/
structure Store where
  outbox : List OutboxItem
  deadLetters : List DeadLetterItem
deriving DecidableEq, Repr

/-- `OutboxManager.remove` (`outboxTable.delete(id)`). -/
def outboxRemove (outbox : List OutboxItem) (id : Nat) : List OutboxItem :=
  outbox.filter (fun it => it.id ≠ id)

/-- `OutboxManager.updateRetry`: look the item up by id and, when present,
update it with `attempt := attempt + 1`, `lastError := error`,
`nextRetryAt := nextRetryAt`. -/
def outboxUpdateRetry (outbox : List OutboxItem) (id : Nat) (error : String)
    (nextRetryAt : Nat) : List OutboxItem :=
  outbox.map (fun it =>
    if it.id = id then
      { it with attempt := it.attempt + 1, lastError := some error,
                nextRetryAt := some nextRetryAt }
    else it)

/-- `OutboxManager.getPending`: items whose `nextRetryAt` is unset
(JavaScript-falsy) or `≤ now`.  A `nextRetryAt` of `0` is falsy in the
source, but it also satisfies `0 ≤ now`, so `t ≤ now` covers both. -/
def getPending (outbox : List OutboxItem) (now : Nat) : List OutboxItem :=
  outbox.filter (fun it =>
    match it.nextRetryAt with
    | none => true
    | some t => t ≤ now)

/-- `PushProcessor.getMaxRetries`: `config.errors.maxRetries` when that is
truthy (set and nonzero), else the default `5`. -/
def getMaxRetries (cfgMaxRetries : Option Nat) : Nat :=
  match cfgMaxRetries with
  | none => 5
  | some 0 => 5
  | some m => m

/-- The rows `PushProcessor.moveToDeadLetters` writes: table, operation,
key and payload copied from the outbox item, the classified error's
message and type (`'unknown'` when the type is empty/falsy), `failedAt`
set to now, and `originalAttempts` preserving the item's attempt count. -/
def deadLetterOf (item : OutboxItem) (e : SyncErr) (now : Nat) : DeadLetterItem :=
  { table := item.table
    operation := item.operation
    key := item.key
    obj := item.obj
    error := e.message
    errorType := if e.type = "" then "unknown" else e.type
    failedAt := now
    originalAttempts := item.attempt }

/-- `PushProcessor.pushItem`.  `outcome` is the settled result of the
transport call (`none` = success, `some e` = rejection with classified
error `e`); `retryDelayFn` is the resolved `getRetryDelay`
(`config.errors.retryDelay` when configured, otherwise
`calculateBackoff` at some random draw).  On success the item is removed
and `pushed` incremented; on failure `failed`/`errors` grow and the item
is either dead-lettered (attempt ≥ maxRetries or non-retryable) or
rescheduled via `updateRetry` with `nextRetryAt = now + retryDelay`. -/
def pushItem (maxRetries : Nat) (retryDelayFn : Nat → Nat) (now : Nat)
    (outcome : Option SyncErr) (item : OutboxItem)
    (st : Store) (res : PushResult) : Store × PushResult :=
  match outcome with
  | none =>
      ({ st with outbox := outboxRemove st.outbox item.id },
       { res with pushed := res.pushed + 1 })
  | some e =>
      let res := { res with failed := res.failed + 1, errors := res.errors ++ [e] }
      if maxRetries ≤ item.attempt ∨ ¬ e.retryable then
        ({ outbox := outboxRemove st.outbox item.id
           deadLetters := st.deadLetters ++ [deadLetterOf item e now] }, res)
      else
        ({ st with outbox := outboxUpdateRetry st.outbox item.id e.message
                     (now + retryDelayFn item.attempt) }, res)

/-- The items `PushProcessor.push` selects: the pending outbox items,
filtered by the optional table argument. -/
def pushSelected (outbox : List OutboxItem) (now : Nat)
    (table : Option String) : List OutboxItem :=
  match table with
  | some t => (getPending outbox now).filter (fun it => it.table = t)
  | none => getPending outbox now

/-- `PushProcessor.push`: select pending items, process each through
`pushItem` (batching and bounded concurrency only interleave transport
calls; every item's store/result effects are those of `pushItem`, applied
here in selection order), then set `success := failed == 0`. -/
def pushRun (maxRetries : Nat) (retryDelayFn : Nat → Nat) (now : Nat)
    (outcome : OutboxItem → Option SyncErr) (table : Option String)
    (st : Store) : Store × PushResult :=
  let items := pushSelected st.outbox now table
  let init : PushResult := { success := true, pushed := 0, failed := 0, errors := [] }
  let out := items.foldl
    (fun (acc : Store × PushResult) item =>
      pushItem maxRetries retryDelayFn now (outcome item) item acc.1 acc.2)
    (st, init)
  (out.1, { out.2 with success := out.2.failed = 0 })

/-- The slice of `SyncEngine` state relevant to table-level pause:
`pausedTables` (a `Set<string>`, modelled as a duplicate-free list). -/
structure EngineTables where
  pausedTables : List String
deriving DecidableEq, Repr

/-- `SyncEngine.pauseTable`: `this.pausedTables.add(table)`. -/
def pauseTable (s : EngineTables) (table : String) : EngineTables :=
  { s with pausedTables :=
      if table ∈ s.pausedTables then s.pausedTables else s.pausedTables ++ [table] }

/-- `SyncEngine.resumeTable`: `this.pausedTables.delete(table)`. -/
def resumeTable (s : EngineTables) (table : String) : EngineTables :=
  { s with pausedTables := s.pausedTables.filter (fun t => t ≠ table) }

/-- The outbox items `SyncEngine.push` dispatches: it delegates straight
to `PushProcessor.push(table)`, whose selection is `pushSelected`.  The
engine state is a parameter to record that the selection does not read
`pausedTables` (no reference to it occurs in the push pipeline). -/
def enginePushDispatched (_s : EngineTables) (outbox : List OutboxItem)
    (now : Nat) (table : Option String) : List OutboxItem :=
  pushSelected outbox now table

/-- The tables `PullProcessor.pull` iterates: the named table when one is
given, otherwise every configured route that has a pull spec.  Routes are
`(tableName, hasPullSpec)` pairs.  As with push, `pausedTables` is not
consulted anywhere in the pull pipeline. -/
def enginePullTables (_s : EngineTables) (routes : List (String × Bool))
    (table : Option String) : List String :=
  match table with
  | some t => [t]
  | none => (routes.filter (fun r => r.2)).map (fun r => r.1)

/-- `PullResult` from `src/core/types.ts`. -/
structure PullResult where
  success : Bool
  pulled : Nat
  applied : Nat
  conflicts : Nat
  errors : List String
deriving DecidableEq, Repr

/-- The engine flags `SyncEngine.sync` consults before starting a cycle. -/
structure EngineFlags where
  isOnline : Bool
  isPausedFlag : Bool
  isSyncingFlag : Bool
deriving DecidableEq, Repr

/-- The observability events a sync cycle can emit. -/
inductive EngineEvent where
  | syncStart
  | pushStart
  | pushComplete
  | pushError
  | pullStart
  | pullComplete
  | pullError
  | syncComplete
  | syncError
deriving DecidableEq, Repr

/-- The aggregate `SyncResult` a successful cycle returns (duration and
timestamp omitted). -/
structure SyncResult where
  success : Bool
deriving DecidableEq, Repr

/-- `SyncEngine.sync`: the three guard checks run, in source order,
before `isSyncingFlag` is set and before any event is emitted; a failing
guard throws (modelled as `Except.error` with the thrown message) with no
events emitted.  Otherwise the cycle runs push then pull (their results
are inputs here) and emits the event sequence of the source. -/
def syncCycle (flags : EngineFlags) (pushResult : PushResult)
    (pullResult : PullResult) : Except String SyncResult × List EngineEvent :=
  if flags.isOnline = false then
    (Except.error "Cannot sync while offline", [])
  else if flags.isPausedFlag then
    (Except.error "Sync is paused", [])
  else if flags.isSyncingFlag then
    (Except.error "Sync already in progress", [])
  else
    (Except.ok { success := pushResult.success && pullResult.success },
     [EngineEvent.syncStart, EngineEvent.pushStart, EngineEvent.pushComplete]
       ++ (if pushResult.success then [] else [EngineEvent.pushError])
       ++ [EngineEvent.pullStart, EngineEvent.pullComplete]
       ++ (if pullResult.success then [] else [EngineEvent.pullError])
       ++ [EngineEvent.syncComplete])

/-- The local state the change applier works on: the user tables (a map
from table name and primary key to the stored record) plus the outbox
(read, never written, by the applier). -/
structure LocalState where
  store : String → Nat → Option Rec
  outbox : List OutboxItem

/-- `dbTable.put(v)`: upsert keyed by primary key. -/
def storePut (store : String → Nat → Option Rec) (table : String) (key : Nat)
    (v : Rec) : String → Nat → Option Rec :=
  fun t k => if t = table ∧ k = key then some v else store t k

/-- The `ConflictInfo` `ChangeApplier.resolveConflict` constructs: the
timestamps use the JavaScript ternary on truthiness
(`local.updatedAt ? getTime(...) : undefined`), so an `updatedAt` of `0`
yields an absent timestamp. -/
def mkConflictInfo (table : String) (key : Nat) (l remote : Rec) : ConflictInfo :=
  { table := table
    key := key
    localRec := l
    remoteRec := remote
    localTimestamp := match l.updatedAt with
      | some t => if t = 0 then none else some t
      | none => none
    remoteTimestamp := match remote.updatedAt with
      | some t => if t = 0 then none else some t
      | none => none
    localVersion := l.version
    remoteVersion := remote.version }

/-- The loop body of `ChangeApplier.applyChanges` for one incoming remote
record: re-read the outbox entries for the table, check for a pending
change on the record's key; with a pending change and a configured
resolver, a detected conflict is resolved and the winner written,
otherwise the remote record is written directly.  The outbox is never
modified.  `applied` is incremented each iteration, `conflicts` only on a
detected conflict. -/
def applyOne (cfg : Option ConflictConfig) (table : String)
    (acc : LocalState × Nat × Nat) (item : Rec) : LocalState × Nat × Nat :=
  let (st, applied, conflicts) := acc
  let pendingChanges := st.outbox.filter (fun c => c.table = table)
  let hasPendingChange := pendingChanges.any (fun c => c.key = item.id)
  if hasPendingChange then
    match st.store table item.id, cfg with
    | some l, some c =>
      if detectConflict (some l) item then
        let resolved := resolve c (mkConflictInfo table item.id l item)
        ({ st with store := storePut st.store table item.id resolved },
         applied + 1, conflicts + 1)
      else
        ({ st with store := storePut st.store table item.id item },
         applied + 1, conflicts)
    | _, _ =>
        ({ st with store := storePut st.store table item.id item },
         applied + 1, conflicts)
  else
    ({ st with store := storePut st.store table item.id item },
     applied + 1, conflicts)

/-- `ChangeApplier.applyChanges`: fold the loop body over the incoming
records, starting from zero counters. -/
def applyChanges (cfg : Option ConflictConfig) (table : String)
    (st : LocalState) (items : List Rec) : LocalState × Nat × Nat :=
  items.foldl (applyOne cfg table) (st, 0, 0)

/-- An event in a run of the leader-election protocol of
`src/utils/leader-election.ts`, for `N` instances identified by their
index (tab ids are distinct, so the handler guard `tabId !== this.tabId`
is `sender ≠ receiver`).
`fire i` is instance `i`'s 100 ms settle-window timeout firing;
the `deliver*` events are the asynchronous delivery of one broadcast
message to one other instance (a broadcast reaches every other instance
as separate delivery events). -/
inductive ElectionEvent (N : Nat) where
  | fire (i : Fin N)
  | deliverLeader (sender receiver : Fin N)
  | deliverHeartbeat (sender receiver : Fin N)
  | deliverResponse (sender receiver : Fin N) (ts : Nat)
  | deliverElection (sender receiver : Fin N)
deriving DecidableEq, Repr

/-- What one event writes to instance `i`'s `isLeaderFlag` (`none` =
leaves it untouched), transcribing the handlers in `setupListeners` and
the timeout body of `electLeader`:
the timeout always finds `electionTimeout` truthy and sets the flag true;
a `leader` or `heartbeat` from another tab sets it false; an
`election-response` from another tab sets it false when its timestamp is
below the receiver's own election start `t0`; an `election` message only
posts a response.  `electionTimeout` is never cleared, so `t0` is a fixed
per-instance value. -/
def effect {N : Nat} (t0 : Fin N → Nat) (e : ElectionEvent N) (i : Fin N) :
    Option Bool :=
  match e with
  | .fire j => if j = i then some true else none
  | .deliverLeader s r => if r = i ∧ s ≠ i then some false else none
  | .deliverHeartbeat s r => if r = i ∧ s ≠ i then some false else none
  | .deliverResponse s r ts => if r = i ∧ s ≠ i ∧ ts < t0 i then some false else none
  | .deliverElection _ _ => none

/-- Processing one event against the vector of `isLeaderFlag`s. -/
def electionStep {N : Nat} (t0 : Fin N → Nat) (st : Fin N → Bool)
    (e : ElectionEvent N) : Fin N → Bool :=
  fun i => (effect t0 e i).getD (st i)

/-- Run a whole event trace from the initial state (every flag false). -/
def electionRun {N : Nat} (t0 : Fin N → Nat) (t : List (ElectionEvent N)) :
    Fin N → Bool :=
  t.foldl (electionStep t0) (fun _ => false)

/-- A settled concurrent election among all `N` instances: every instance
runs its election (its settle window fires), every `leader` announcement
is delivered to every other instance (quiescence), deliveries never
precede the announcement they carry, and no broadcast is delivered back
to its sender. -/
def electionValid {N : Nat} (t : List (ElectionEvent N)) : Prop :=
  (∀ i : Fin N, ElectionEvent.fire i ∈ t) ∧
  (∀ i j : Fin N, i ≠ j → ElectionEvent.deliverLeader i j ∈ t) ∧
  (∀ i j : Fin N, ∀ k, k < t.length → ∀ k', k' < t.length →
    t.get? k = some (ElectionEvent.deliverLeader i j) →
    t.get? k' = some (ElectionEvent.fire i) → k' < k) ∧
  (∀ i j : Fin N, ∀ k, k < t.length →
    t.get? k = some (ElectionEvent.deliverLeader i j) → i ≠ j)

/-- The last write an event trace makes to instance `i`'s flag. -/
def lastW {N : Nat} (t0 : Fin N → Nat) : List (ElectionEvent N) → Fin N → Option Bool
  | [], _ => none
  | e :: rest, i =>
    match lastW t0 rest i with
    | some b => some b
    | none => effect t0 e i

instance electionValidDec {N : Nat} (t : List (ElectionEvent N)) :
    Decidable (electionValid t) := by
  unfold electionValid
  infer_instance

/-- C6 — counterexample: two records that both carry an `updatedAt`
timestamp, and the timestamps are equal (`0 = 0`), yet `detectConflict`
reports a conflict: the source tests `updatedAt` for JavaScript
truthiness, so the value `0` never reaches the timestamp comparison and
the conservative `true` branch runs instead of returning `false`. -/
theorem detectConflict_equal_zero_timestamps :
    ({ id := 1, version := none, updatedAt := some 0, data := 0 } : Rec).updatedAt =
      ({ id := 1, version := none, updatedAt := some 0, data := 1 } : Rec).updatedAt ∧
    detectConflict (some { id := 1, version := none, updatedAt := some 0, data := 0 })
      { id := 1, version := none, updatedAt := some 0, data := 1 } = true := by
  decide

/-- C6 (amended): `detectConflict` returns `false` when the local record
is absent; when both records carry a `version` it returns `true` iff the
versions differ; otherwise, when both carry a NONZERO `updatedAt` it
returns `true` iff the timestamps differ; in every remaining case —
including an `updatedAt` equal to `0`, which the source's truthiness test
treats as missing — it conservatively returns `true`. -/
theorem detectConflict_spec :
    (∀ r : Rec, detectConflict none r = false) ∧
    (∀ (l r : Rec) (lv rv : Int), l.version = some lv → r.version = some rv →
      (detectConflict (some l) r = true ↔ lv ≠ rv)) ∧
    (∀ (l r : Rec) (lt rt : Nat), l.version = none ∨ r.version = none →
      l.updatedAt = some lt → r.updatedAt = some rt → lt ≠ 0 → rt ≠ 0 →
      (detectConflict (some l) r = true ↔ lt ≠ rt)) ∧
    (∀ l r : Rec, l.version = none ∨ r.version = none →
      l.updatedAt = none ∨ r.updatedAt = none ∨ l.updatedAt = some 0 ∨
        r.updatedAt = some 0 →
      detectConflict (some l) r = true) := by
  refine ⟨fun r => rfl, ?_, ?_, ?_⟩
  · intro l r lv rv hl hr
    simp [detectConflict, hl, hr]
  · intro l r lt rt hv hu hru h0 hr0
    rcases hv with hv | hv
    · simp [detectConflict, hv, hu, hru, h0, hr0]
    · rcases hlv : l.version with _ | lv <;>
        simp [detectConflict, hlv, hv, hu, hru, h0, hr0]
  · intro l r hv hu
    rcases hv with hv | hv
    · rcases hu with hu | hu | hu | hu <;>
        rcases hru : r.updatedAt with _ | rt <;>
        rcases hlu : l.updatedAt with _ | lt <;>
        simp_all [detectConflict]
    · rcases hlv : l.version with _ | lv <;>
        rcases hu with hu | hu | hu | hu <;>
        rcases hru : r.updatedAt with _ | rt <;>
        rcases hlu : l.updatedAt with _ | lt <;>
        simp_all [detectConflict]

/-- C7: `resolve` dispatches per policy — `server-wins` returns the
remote record, `client-wins` the local record; `lww` returns the local
record exactly when its timestamp is strictly larger, the remote record
otherwise (so the remote wins an exact tie); `custom` with a configured
handler returns the handler's value verbatim; and under
`server-wins`/`client-wins` the result is a pure function of the
remote/local value alone, unchanged across repeated calls. -/
theorem resolve_policy_spec :
    (∀ (cfg : ConflictConfig) (c : ConflictInfo), cfg.policy = "server-wins" →
      resolve cfg c = c.remoteRec) ∧
    (∀ (cfg : ConflictConfig) (c : ConflictInfo), cfg.policy = "client-wins" →
      resolve cfg c = c.localRec) ∧
    (∀ (cfg : ConflictConfig) (c : ConflictInfo) (lt rt : Nat),
      cfg.policy = "lww" → c.localTimestamp = some lt →
      c.remoteTimestamp = some rt →
      resolve cfg c = if rt < lt then c.localRec else c.remoteRec) ∧
    (∀ (f : ConflictInfo → Rec) (c : ConflictInfo),
      resolve { policy := "custom", onConflict := some f } c = f c) ∧
    (∀ (cfg : ConflictConfig) (c c' : ConflictInfo), cfg.policy = "server-wins" →
      c.remoteRec = c'.remoteRec → resolve cfg c = resolve cfg c') ∧
    (∀ (cfg : ConflictConfig) (c c' : ConflictInfo), cfg.policy = "client-wins" →
      c.localRec = c'.localRec → resolve cfg c = resolve cfg c') := by
  have hsw : ∀ (cfg : ConflictConfig) (c : ConflictInfo),
      cfg.policy = "server-wins" → resolve cfg c = c.remoteRec := by
    intro cfg c hp
    rcases hoc : cfg.onConflict with _ | f <;>
      simp [resolve, hoc, hp, getStrategy, serverWins]
  have hcw : ∀ (cfg : ConflictConfig) (c : ConflictInfo),
      cfg.policy = "client-wins" → resolve cfg c = c.localRec := by
    intro cfg c hp
    rcases hoc : cfg.onConflict with _ | f <;>
      simp [resolve, hoc, hp, getStrategy, clientWins]
  refine ⟨hsw, hcw, ?_, ?_, ?_, ?_⟩
  · intro cfg c lt rt hp hlt hrt
    rcases hoc : cfg.onConflict with _ | f <;>
      simp only [resolve, hoc, hp] <;>
      simp [getStrategy, lastWriteWins, hlt, hrt]
  · intro f c
    simp [resolve]
  · intro cfg c c' hp h
    rw [hsw cfg c hp, hsw cfg c' hp, h]
  · intro cfg c c' hp h
    rw [hcw cfg c hp, hcw cfg c' hp, h]

/-- Witness for C7: the theorem applied to a concrete conflict under each
policy hypothesis. -/
theorem resolve_policy_spec_witness :
    resolve { policy := "server-wins", onConflict := none }
        { table := "posts", key := 1
          localRec := { id := 1, version := none, updatedAt := some 100, data := 7 }
          remoteRec := { id := 1, version := none, updatedAt := some 200, data := 8 }
          localTimestamp := some 100, remoteTimestamp := some 200
          localVersion := none, remoteVersion := none } =
      { id := 1, version := none, updatedAt := some 200, data := 8 } :=
  resolve_policy_spec.1 _ _ rfl

/-- C10: any policy value outside the three built-in names — including
`'custom'` with no `onConflict` handler configured — falls through
`getStrategy`'s default branch to `serverWins`, so `resolve` returns the
remote record rather than failing. -/
theorem resolve_unknown_policy (cfg : ConflictConfig) (c : ConflictInfo)
    (h1 : cfg.policy ≠ "server-wins") (h2 : cfg.policy ≠ "client-wins")
    (h3 : cfg.policy ≠ "lww")
    (h4 : cfg.policy = "custom" → cfg.onConflict = none) :
    resolve cfg c = c.remoteRec := by
  rcases hoc : cfg.onConflict with _ | f
  · simp [resolve, hoc, getStrategy, h1, h2, h3, serverWins]
  · by_cases hc : cfg.policy = "custom"
    · rw [h4 hc] at hoc
      exact absurd hoc (by simp)
    · simp [resolve, hoc, hc, getStrategy, h1, h2, h3, serverWins]

/-- Witness for C10: the `'custom'` policy with no handler resolves to
the remote record. -/
theorem resolve_unknown_policy_witness :
    resolve { policy := "custom", onConflict := none }
        { table := "posts", key := 1
          localRec := { id := 1, version := none, updatedAt := some 100, data := 7 }
          remoteRec := { id := 1, version := none, updatedAt := some 200, data := 8 }
          localTimestamp := some 100, remoteTimestamp := some 200
          localVersion := none, remoteVersion := none } =
      { id := 1, version := none, updatedAt := some 200, data := 8 } :=
  resolve_unknown_policy _ _ (by decide) (by decide) (by decide) (fun _ => rfl)

/-- Witness for C6: the version branch of the amended characterization at
concrete unequal versions. -/
theorem detectConflict_spec_witness :
    detectConflict (some { id := 1, version := some 1, updatedAt := none, data := 0 })
      { id := 1, version := some 2, updatedAt := none, data := 0 } = true :=
  (detectConflict_spec.2.1
    { id := 1, version := some 1, updatedAt := none, data := 0 }
    { id := 1, version := some 2, updatedAt := none, data := 0 }
    1 2 rfl rfl).mpr (by decide)

/-- The exponential base of the backoff before jitter:
`min(1000 * 2^attempt, 60000)`. -/
def baseDelay (attempt : Nat) : ℚ :=
  min (1000 * 2 ^ attempt) 60000

/-- C3 — counterexample: the spec's jitter formula
`min(1000·2^n, 60000) · (1 + 0.2·(2r − 1))` disagrees with the code at
`n = 0`, `r = 0`: the code computes `⌊1000 + 1000·0.2·(0 − 0.5)⌋ = 900`
while the claimed formula gives `800`; in fact `800 = 0.8·1000` is not
attained for any `r ∈ [0,1]`, so the full ±20 % band is unattainable. -/
theorem calculateBackoff_not_pm20 :
    calculateBackoff 0 0 = 900 ∧ specBackoff 0 0 = 800 ∧
      calculateBackoff 0 0 ≠ specBackoff 0 0 ∧
      ∀ r : ℚ, 0 ≤ r → r ≤ 1 → 900 ≤ calculateBackoff 0 r := by
  refine ⟨by norm_num [calculateBackoff], by norm_num [specBackoff], by norm_num [calculateBackoff, specBackoff], ?_⟩
  intro r h0 h1
  have : (900 : ℚ) ≤ 1000 + 1000 * (1/5) * (r - 1/2) := by nlinarith
  calc (900 : ℤ) = ⌊(900 : ℚ)⌋ := by norm_num
    _ ≤ calculateBackoff 0 r := by
        simp only [calculateBackoff]
        exact Int.floor_le_floor (by norm_num; nlinarith)

/-- C3 (amended): the code's jitter is multiplicative ±10 %, not ±20 %:
for every attempt `n` and random draw `r ∈ [0,1)`,
`calculateBackoff n r = ⌊D·(9/10 + r/5)⌋` with `D = min(1000·2^n, 60000)`,
hence `0.9·D − 1 < backoff ≤ 1.1·D`; the spec's outer bounds
`0.8·D ≤ backoff ≤ 1.2·D` therefore still hold, but the band actually
taken is the strict sub-band `[0.9·D, 1.1·D)`. -/
theorem calculateBackoff_bounds (n : Nat) (r : ℚ) (h0 : 0 ≤ r) (h1 : r < 1) :
    calculateBackoff n r = ⌊baseDelay n * (9/10 + r/5)⌋ ∧
    (9/10) * baseDelay n - 1 < (calculateBackoff n r : ℚ) ∧
    (calculateBackoff n r : ℚ) ≤ (11/10) * baseDelay n ∧
    (8/10) * baseDelay n ≤ (calculateBackoff n r : ℚ) ∧
    (calculateBackoff n r : ℚ) ≤ (12/10) * baseDelay n := by
  have hD : (1000 : ℚ) ≤ baseDelay n := by
    have h2 : (1 : ℚ) ≤ 2 ^ n := one_le_pow₀ (by norm_num)
    simp only [baseDelay]
    refine le_min (by nlinarith) (by norm_num)
  have heq : calculateBackoff n r = ⌊baseDelay n * (9/10 + r/5)⌋ := by
    simp only [calculateBackoff, baseDelay]
    congr 1
    ring
  have hle : (calculateBackoff n r : ℚ) ≤ baseDelay n * (9/10 + r/5) := by
    rw [heq]; exact Int.floor_le _
  have hgt : baseDelay n * (9/10 + r/5) - 1 < (calculateBackoff n r : ℚ) := by
    rw [heq]; exact Int.sub_one_lt_floor _
  refine ⟨heq, by nlinarith, by nlinarith, by nlinarith, by nlinarith⟩

/-- Witness for C3's amended theorem at `n = 0`, `r = 1/2`. -/
theorem calculateBackoff_bounds_witness :
    calculateBackoff 0 (1/2) = ⌊baseDelay 0 * (9/10 + (1/2 : ℚ)/5)⌋ ∧
    (9/10) * baseDelay 0 - 1 < (calculateBackoff 0 (1/2) : ℚ) ∧
    (calculateBackoff 0 (1/2) : ℚ) ≤ (11/10) * baseDelay 0 ∧
    (8/10) * baseDelay 0 ≤ (calculateBackoff 0 (1/2) : ℚ) ∧
    (calculateBackoff 0 (1/2) : ℚ) ≤ (12/10) * baseDelay 0 :=
  calculateBackoff_bounds 0 (1/2) (by norm_num) (by norm_num)

/-- C4: `sync()` throws — returning a reported error with no sync cycle
started and no event emitted — exactly when the engine is offline, paused
or already syncing (checked in that order, before `isSyncingFlag` is set
and before `sync-start` fires); in every other case it proceeds and
returns the composed push-then-pull result, emitting `sync-start` first. -/
theorem sync_guard_spec (flags : EngineFlags) (pushR : PushResult)
    (pullR : PullResult) :
    ((∃ msg, (syncCycle flags pushR pullR).1 = Except.error msg) ↔
      flags.isOnline = false ∨ flags.isPausedFlag = true ∨
        flags.isSyncingFlag = true) ∧
    ((∃ msg, (syncCycle flags pushR pullR).1 = Except.error msg) →
      (syncCycle flags pushR pullR).2 = []) ∧
    (flags.isOnline = true → flags.isPausedFlag = false →
      flags.isSyncingFlag = false →
      (syncCycle flags pushR pullR).1 =
        Except.ok { success := pushR.success && pullR.success } ∧
      (syncCycle flags pushR pullR).2.head? = some EngineEvent.syncStart) := by
  rcases flags with ⟨o, p, s⟩
  cases o <;> cases p <;> cases s <;> simp [syncCycle]

/-- Witness for C4: an offline engine rejects the call with no events. -/
theorem sync_guard_spec_witness :
    (∃ msg,
      (syncCycle { isOnline := false, isPausedFlag := false, isSyncingFlag := false }
        { success := true, pushed := 0, failed := 0, errors := [] }
        { success := true, pulled := 0, applied := 0, conflicts := 0, errors := [] }).1 =
        Except.error msg) ∧
    (syncCycle { isOnline := false, isPausedFlag := false, isSyncingFlag := false }
      { success := true, pushed := 0, failed := 0, errors := [] }
      { success := true, pulled := 0, applied := 0, conflicts := 0, errors := [] }).2 = [] :=
  ⟨(sync_guard_spec _ _ _).1.mpr (Or.inl rfl),
   (sync_guard_spec _ _ _).2.1 ((sync_guard_spec _ _ _).1.mpr (Or.inl rfl))⟩

/-- C2 — evaluation at the failing input: after `pauseTable "posts"` the
table is recorded in `pausedTables`, yet `push()` still dispatches the
pending outbox item for `"posts"` and `pull()` still iterates the
`"posts"` route: the paused-table set is written by
`pauseTable`/`resumeTable` but read nowhere in the push or pull
pipelines. -/
theorem pauseTable_not_enforced :
    (pauseTable { pausedTables := [] } "posts").pausedTables = ["posts"] ∧
    enginePushDispatched (pauseTable { pausedTables := [] } "posts")
      [{ id := 1, table := "posts", operation := Operation.update, key := 1,
         obj := some 0, attempt := 0, createdAt := 0, lastError := none,
         nextRetryAt := none }] 100 none =
      [{ id := 1, table := "posts", operation := Operation.update, key := 1,
         obj := some 0, attempt := 0, createdAt := 0, lastError := none,
         nextRetryAt := none }] ∧
    enginePullTables (pauseTable { pausedTables := [] } "posts")
      [("posts", true)] none = ["posts"] := by
  decide

/-- C1: when a push attempt for an outbox item fails with classified
error `e`: if the item's attempt count has reached `maxRetries` or `e` is
non-retryable, a dead-letter row preserving the item's table, operation,
key, payload and attempt count (as `originalAttempts`) is appended and
the item is removed from the outbox; otherwise the outbox entry is
rewritten with `attempt` incremented by one, `lastError := e.message` and
`nextRetryAt := now + retryDelay(attempt)`, and no dead-letter row is
written. -/
theorem pushItem_failure_spec (mR : Nat) (rdf : Nat → Nat) (now : Nat)
    (e : SyncErr) (item : OutboxItem) (st : Store) (res : PushResult) :
    (mR ≤ item.attempt ∨ e.retryable = false →
      (pushItem mR rdf now (some e) item st res).1.deadLetters =
          st.deadLetters ++ [deadLetterOf item e now] ∧
      (deadLetterOf item e now).table = item.table ∧
      (deadLetterOf item e now).operation = item.operation ∧
      (deadLetterOf item e now).key = item.key ∧
      (deadLetterOf item e now).obj = item.obj ∧
      (deadLetterOf item e now).error = e.message ∧
      (deadLetterOf item e now).originalAttempts = item.attempt ∧
      ∀ it ∈ (pushItem mR rdf now (some e) item st res).1.outbox,
        it.id ≠ item.id) ∧
    (item.attempt < mR → e.retryable = true →
      (pushItem mR rdf now (some e) item st res).1.deadLetters =
          st.deadLetters ∧
      (pushItem mR rdf now (some e) item st res).1.outbox =
        outboxUpdateRetry st.outbox item.id e.message (now + rdf item.attempt) ∧
      (item ∈ st.outbox →
        { item with attempt := item.attempt + 1, lastError := some e.message,
                    nextRetryAt := some (now + rdf item.attempt) } ∈
          (pushItem mR rdf now (some e) item st res).1.outbox)) := by
  constructor
  · intro h
    have hcond : mR ≤ item.attempt ∨ ¬ (e.retryable = true) := by
      rcases h with h | h
      · exact Or.inl h
      · exact Or.inr (by simp [h])
    refine ⟨?_, rfl, rfl, rfl, rfl, rfl, rfl, ?_⟩
    · simp only [pushItem, if_pos hcond]
    · intro it hit
      simp only [pushItem, if_pos hcond] at hit
      exact of_decide_eq_true (List.mem_filter.mp hit).2
  · intro h1 h2
    have hcond : ¬ (mR ≤ item.attempt ∨ ¬ (e.retryable = true)) := by
      push_neg
      exact ⟨by omega, h2⟩
    refine ⟨?_, ?_, ?_⟩
    · simp only [pushItem, if_neg hcond]
    · simp only [pushItem, if_neg hcond]
    · intro him
      simp only [pushItem, if_neg hcond]
      have : ({ item with attempt := item.attempt + 1, lastError := some e.message,
                          nextRetryAt := some (now + rdf item.attempt) } : OutboxItem) =
          (fun it => if it.id = item.id then
            { it with attempt := it.attempt + 1, lastError := some e.message,
                      nextRetryAt := some (now + rdf item.attempt) }
            else it) item := by
        simp
      rw [outboxUpdateRetry, this]
      exact List.mem_map_of_mem _ him

/-- Witness for C1: a first-attempt retryable failure leaves the
dead-letter table untouched. -/
theorem pushItem_failure_spec_witness :
    (pushItem 5 (fun _ => 1000) 50
        (some { type := "network", message := "boom", retryable := true })
        { id := 1, table := "posts", operation := Operation.update, key := 1,
          obj := some 0, attempt := 0, createdAt := 0, lastError := none,
          nextRetryAt := none }
        { outbox := [], deadLetters := [] }
        { success := true, pushed := 0, failed := 0, errors := [] }).1.deadLetters = [] :=
  ((pushItem_failure_spec 5 (fun _ => 1000) 50 _ _ _ _).2 (by decide) rfl).1

/-- A `pushItem` step never disturbs an outbox entry with a different id:
the success and dead-letter branches delete only the processed id, and
the reschedule branch rewrites only the processed id. -/
theorem pushItem_keeps_other (mR : Nat) (rdf : Nat → Nat) (now : Nat)
    (oc : Option SyncErr) (item : OutboxItem) (st : Store) (res : PushResult)
    (x : OutboxItem) (hx : x ∈ st.outbox) (hne : x.id ≠ item.id) :
    x ∈ (pushItem mR rdf now oc item st res).1.outbox := by
  rcases oc with _ | e
  · simp only [pushItem]
    exact List.mem_filter.mpr ⟨hx, decide_eq_true hne⟩
  · simp only [pushItem]
    split
    · exact List.mem_filter.mpr ⟨hx, decide_eq_true hne⟩
    · rw [outboxUpdateRetry]
      have hfx : (if x.id = item.id then
          { x with attempt := x.attempt + 1, lastError := some e.message,
                   nextRetryAt := some (now + rdf item.attempt) }
          else x) = x := if_neg hne
      exact hfx ▸ List.mem_map_of_mem _ hx

/-- Folding `pushItem` over items none of which carries `x`'s id keeps
`x` in the outbox. -/
theorem pushFold_keeps (mR : Nat) (rdf : Nat → Nat) (now : Nat)
    (outcome : OutboxItem → Option SyncErr) (items : List OutboxItem) :
    ∀ (acc : Store × PushResult) (x : OutboxItem), x ∈ acc.1.outbox →
      (∀ it ∈ items, it.id ≠ x.id) →
      x ∈ (items.foldl (fun acc it =>
            pushItem mR rdf now (outcome it) it acc.1 acc.2) acc).1.outbox := by
  induction items with
  | nil => intro acc x hx _; simpa using hx
  | cons a rest ih =>
    intro acc x hx hne
    simp only [List.foldl_cons]
    exact ih _ x
      (pushItem_keeps_other mR rdf now (outcome a) a acc.1 acc.2 x hx
        (Ne.symm (hne a (List.mem_cons_self a rest))))
      (fun it hit => hne it (List.mem_cons_of_mem a hit))

/-- The result record after a successful `pushItem`. -/
theorem pushItem_res_ok (mR : Nat) (rdf : Nat → Nat) (now : Nat)
    (item : OutboxItem) (st : Store) (res : PushResult) :
    (pushItem mR rdf now none item st res).2 =
      { res with pushed := res.pushed + 1 } := rfl

/-- The result record after a failed `pushItem`, in either failure
branch. -/
theorem pushItem_res_err (mR : Nat) (rdf : Nat → Nat) (now : Nat)
    (e : SyncErr) (item : OutboxItem) (st : Store) (res : PushResult) :
    (pushItem mR rdf now (some e) item st res).2 =
      { res with failed := res.failed + 1, errors := res.errors ++ [e] } := by
  simp only [pushItem]
  split <;> rfl

/-- Folding `pushItem` adds one `failed` per error outcome and one
`pushed` per success outcome. -/
theorem pushFold_counts (mR : Nat) (rdf : Nat → Nat) (now : Nat)
    (outcome : OutboxItem → Option SyncErr) (items : List OutboxItem) :
    ∀ acc : Store × PushResult,
      ((items.foldl (fun acc it =>
          pushItem mR rdf now (outcome it) it acc.1 acc.2) acc).2.failed =
        acc.2.failed + (items.filter (fun it => (outcome it).isSome)).length) ∧
      ((items.foldl (fun acc it =>
          pushItem mR rdf now (outcome it) it acc.1 acc.2) acc).2.pushed =
        acc.2.pushed + (items.filter (fun it => (outcome it).isNone)).length) := by
  induction items with
  | nil => intro acc; simp
  | cons a rest ih =>
    intro acc
    simp only [List.foldl_cons, List.filter_cons]
    rcases h : outcome a with _ | e
    · constructor
      · rw [(ih _).1]
        simp [h, pushItem_res_ok]
      · rw [(ih _).2]
        simp [h, pushItem_res_ok]
        omega
    · constructor
      · rw [(ih _).1]
        simp [h, pushItem_res_err]
        omega
      · rw [(ih _).2]
        simp [h, pushItem_res_err]

/-- A rescheduled item is not lost: after its failing `pushItem` step an
outbox entry with its id is still present (the rewritten entry). -/
theorem pushItem_reschedule_mem (mR : Nat) (rdf : Nat → Nat) (now : Nat)
    (e : SyncErr) (item : OutboxItem) (st : Store) (res : PushResult)
    (hatt : item.attempt < mR) (hret : e.retryable = true)
    (him : item ∈ st.outbox) :
    ∃ it ∈ (pushItem mR rdf now (some e) item st res).1.outbox,
      it.id = item.id := by
  have hcond : ¬ (mR ≤ item.attempt ∨ ¬ (e.retryable = true)) := by
    push_neg
    exact ⟨by omega, hret⟩
  simp only [pushItem, if_neg hcond]
  refine ⟨{ item with attempt := item.attempt + 1, lastError := some e.message,
                      nextRetryAt := some (now + rdf item.attempt) }, ?_, rfl⟩
  rw [outboxUpdateRetry]
  have hfx : (if item.id = item.id then
      { item with attempt := item.attempt + 1, lastError := some e.message,
                  nextRetryAt := some (now + rdf item.attempt) }
      else item) =
      { item with attempt := item.attempt + 1, lastError := some e.message,
                  nextRetryAt := some (now + rdf item.attempt) } := if_pos rfl
  exact hfx ▸ List.mem_map_of_mem _ him

/-- In a duplicate-free projection of `l1 ++ b :: l2`, no element of `l1`
or `l2` shares `b`'s projection. -/
theorem nodup_split_ne {α β : Type} (f : α → β) (l1 l2 : List α) (b : α)
    (h : ((l1 ++ b :: l2).map f).Nodup) :
    (∀ a ∈ l1, f a ≠ f b) ∧ (∀ a ∈ l2, f a ≠ f b) := by
  rw [List.map_append, List.map_cons, List.nodup_append] at h
  obtain ⟨h1, h2, hd⟩ := h
  constructor
  · intro a ha hfe
    exact hd (List.mem_map_of_mem f ha) (by rw [hfe]; exact List.mem_cons_self _ _)
  · intro a ha hfe
    rcases List.nodup_cons.mp h2 with ⟨hnb, _⟩
    exact hnb (hfe ▸ List.mem_map_of_mem f ha)

/-- The push pipeline's selection is a sublist of the outbox. -/
theorem pushSelected_sublist (outbox : List OutboxItem) (now : Nat)
    (table : Option String) :
    (pushSelected outbox now table).Sublist outbox := by
  rcases table with _ | t
  · exact List.filter_sublist _
  · exact (List.filter_sublist _).trans (List.filter_sublist _)

/-- C9: for one `push()` invocation — modelling each selected item's
settled transport outcome — `success` is true iff no item failed;
`failed` counts exactly the items whose transport call failed (including
the merely rescheduled ones) and `pushed` the ones that succeeded; and
every rescheduled item (retryable error, attempt below the cap) still has
an outbox entry with its id after the call returns. -/
theorem push_invocation_spec (mR : Nat) (rdf : Nat → Nat) (now : Nat)
    (outcome : OutboxItem → Option SyncErr) (table : Option String) (st : Store)
    (hids : (st.outbox.map (fun it => it.id)).Nodup) :
    ((pushRun mR rdf now outcome table st).2.success = true ↔
      (pushRun mR rdf now outcome table st).2.failed = 0) ∧
    ((pushRun mR rdf now outcome table st).2.failed =
      ((pushSelected st.outbox now table).filter
        (fun it => (outcome it).isSome)).length) ∧
    ((pushRun mR rdf now outcome table st).2.pushed =
      ((pushSelected st.outbox now table).filter
        (fun it => (outcome it).isNone)).length) ∧
    (∀ item ∈ pushSelected st.outbox now table, ∀ e : SyncErr,
      outcome item = some e → e.retryable = true → item.attempt < mR →
      ∃ it ∈ (pushRun mR rdf now outcome table st).1.outbox,
        it.id = item.id) := by
  refine ⟨?_, ?_, ?_, ?_⟩
  · simp [pushRun]
  · simp only [pushRun]
    simpa using (pushFold_counts mR rdf now outcome
      (pushSelected st.outbox now table)
      (st, { success := true, pushed := 0, failed := 0, errors := [] })).1
  · simp only [pushRun]
    simpa using (pushFold_counts mR rdf now outcome
      (pushSelected st.outbox now table)
      (st, { success := true, pushed := 0, failed := 0, errors := [] })).2
  · intro item hmem e he hret hatt
    have hsub := pushSelected_sublist st.outbox now table
    have hsel_ids : ((pushSelected st.outbox now table).map
        (fun it => it.id)).Nodup := (hsub.map _).nodup hids
    obtain ⟨l1, l2, hsplit⟩ := List.append_of_mem hmem
    rw [hsplit] at hsel_ids
    obtain ⟨hl1ne, hl2ne⟩ := nodup_split_ne (fun it => it.id) l1 l2 item hsel_ids
    simp only [pushRun]
    rw [hsplit, List.foldl_append, List.foldl_cons]
    have hitem0 : item ∈ st.outbox := hsub.subset hmem
    have hstep0 : item ∈ ((l1.foldl
        (fun (acc : Store × PushResult) it =>
          pushItem mR rdf now (outcome it) it acc.1 acc.2)
        (st, { success := true, pushed := 0, failed := 0, errors := [] }))).1.outbox :=
      pushFold_keeps mR rdf now outcome l1 _ item hitem0 hl1ne
    rw [he]
    obtain ⟨it0, hit0, hid0⟩ := pushItem_reschedule_mem mR rdf now e item _ _
      hatt hret hstep0
    refine ⟨it0, ?_, hid0⟩
    exact pushFold_keeps mR rdf now outcome l2 _ it0 hit0
      (fun it hit => by rw [hid0]; exact hl2ne it hit)

/-- Witness for C9: one pending item whose push fails with a retryable
error counts as failed. -/
theorem push_invocation_spec_witness :
    (pushRun 5 (fun _ => 1000) 50
        (fun _ => some { type := "network", message := "boom", retryable := true })
        none
        { outbox := [{ id := 1, table := "posts", operation := Operation.update,
                       key := 1, obj := some 0, attempt := 0, createdAt := 0,
                       lastError := none, nextRetryAt := none }],
          deadLetters := [] }).2.failed = 1 :=
  (push_invocation_spec 5 (fun _ => 1000) 50
    (fun _ => some { type := "network", message := "boom", retryable := true })
    none
    { outbox := [{ id := 1, table := "posts", operation := Operation.update,
                   key := 1, obj := some 0, attempt := 0, createdAt := 0,
                   lastError := none, nextRetryAt := none }],
      deadLetters := [] } (by decide)).2.1

/-- Every branch of the change applier's loop body leaves the outbox
unchanged. -/
theorem applyOne_outbox (cfg : Option ConflictConfig) (table : String)
    (st : LocalState) (applied conflicts : Nat) (item : Rec) :
    (applyOne cfg table (st, applied, conflicts) item).1.outbox = st.outbox := by
  simp only [applyOne]
  split
  · split
    · split <;> rfl
    · rfl
  · rfl

/-- The whole `applyChanges` pass leaves the outbox unchanged: an
incoming pull never cancels a queued local mutation. -/
theorem applyChanges_outbox (cfg : Option ConflictConfig) (table : String)
    (st : LocalState) (items : List Rec) :
    (applyChanges cfg table st items).1.outbox = st.outbox := by
  suffices h : ∀ (its : List Rec) (acc : LocalState × Nat × Nat),
      (its.foldl (applyOne cfg table) acc).1.outbox = acc.1.outbox by
    exact h items (st, 0, 0)
  intro its
  induction its with
  | nil => intro acc; rfl
  | cons a rest ih =>
    intro acc
    rcases acc with ⟨stA, appliedA, conflictsA⟩
    rw [List.foldl_cons, ih, applyOne_outbox]

/-- C8: during `applyChanges`, an incoming remote record with no pending
outbox entry for its key is written to the local store unconditionally;
with a pending entry but no detected conflict the remote value is also
written directly; and in both cases (indeed in every case) the pending
outbox entries are left untouched by the pull. -/
theorem applyOne_spec (cfg : Option ConflictConfig) (table : String)
    (st : LocalState) (applied conflicts : Nat) (item : Rec) :
    ((st.outbox.filter (fun c => c.table = table)).any
        (fun c => c.key = item.id) = false →
      (applyOne cfg table (st, applied, conflicts) item).1.store table item.id =
        some item) ∧
    ((st.outbox.filter (fun c => c.table = table)).any
        (fun c => c.key = item.id) = true →
      detectConflict (st.store table item.id) item = false →
      (applyOne cfg table (st, applied, conflicts) item).1.store table item.id =
        some item) ∧
    (applyOne cfg table (st, applied, conflicts) item).1.outbox = st.outbox := by
  refine ⟨?_, ?_, applyOne_outbox cfg table st applied conflicts item⟩
  · intro h
    simp only [applyOne, h]
    simp [storePut]
  · intro h hd
    simp only [applyOne, h]
    rcases hl : st.store table item.id with _ | l
    · rcases cfg with _ | c <;> simp [storePut]
    · rw [hl] at hd
      rcases cfg with _ | c
      · simp [storePut]
      · simp only [hd]
        simp [storePut]

/-- If a trace makes no write to instance `i`'s flag, no event in it
touches `i`. -/
theorem lastW_none_touch {N : Nat} (t0 : Fin N → Nat)
    (t : List (ElectionEvent N)) (i : Fin N) (h : lastW t0 t i = none) :
    ∀ k e, t.get? k = some e → effect t0 e i = none := by
  induction t with
  | nil =>
    intro k e hk
    simp at hk
  | cons a rest ih =>
    intro k e hk
    rcases hrest : lastW t0 rest i with _ | b
    · have ha : effect t0 a i = none := by
        simpa [lastW, hrest] using h
      cases k with
      | zero =>
        rw [List.get?_cons_zero] at hk
        cases hk
        exact ha
      | succ n =>
        rw [List.get?_cons_succ] at hk
        exact ih hrest n e hk
    · exfalso
      simp [lastW, hrest] at h

/-- A trace whose last write to `i` is `b` contains an event writing `b`
to `i` after which no event touches `i`. -/
theorem lastW_some_spec {N : Nat} (t0 : Fin N → Nat)
    (t : List (ElectionEvent N)) (i : Fin N) (b : Bool)
    (h : lastW t0 t i = some b) :
    ∃ k e, t.get? k = some e ∧ effect t0 e i = some b ∧
      ∀ k' e', k < k' → t.get? k' = some e' → effect t0 e' i = none := by
  induction t with
  | nil => simp [lastW] at h
  | cons a rest ih =>
    rcases hrest : lastW t0 rest i with _ | b'
    · have ha : effect t0 a i = some b := by
        simpa [lastW, hrest] using h
      refine ⟨0, a, List.get?_cons_zero, ha, ?_⟩
      intro k' e' hk' hg
      cases k' with
      | zero => omega
      | succ n =>
        rw [List.get?_cons_succ] at hg
        exact lastW_none_touch t0 rest i hrest n e' hg
    · have hb : b' = b := by
        simpa [lastW, hrest] using h
      subst hb
      obtain ⟨k, e, hg, he, hafter⟩ := ih hrest
      refine ⟨k + 1, e, by rw [List.get?_cons_succ]; exact hg, he, ?_⟩
      intro k' e' hk' hg'
      cases k' with
      | zero => omega
      | succ n =>
        rw [List.get?_cons_succ] at hg'
        exact hafter n e' (by omega) hg'

/-- Running a trace computes, for each instance, its last write (or the
initial value when the trace never touches it). -/
theorem electionRun_lastW {N : Nat} (t0 : Fin N → Nat)
    (t : List (ElectionEvent N)) :
    ∀ (s : Fin N → Bool) (i : Fin N),
      t.foldl (electionStep t0) s i = (lastW t0 t i).getD (s i) := by
  induction t with
  | nil => intro s i; rfl
  | cons a rest ih =>
    intro s i
    rw [List.foldl_cons, ih]
    rcases hrest : lastW t0 rest i with _ | b
    · simp [lastW, hrest, electionStep]
    · simp [lastW, hrest]

/-- An instance whose flag ends `true` had `some true` as its last
write. -/
theorem electionRun_true_lastW {N : Nat} (t0 : Fin N → Nat)
    (t : List (ElectionEvent N)) (x : Fin N)
    (hx : electionRun t0 t x = true) : lastW t0 t x = some true := by
  have hrun := electionRun_lastW t0 t (fun _ => false) x
  rw [show t.foldl (electionStep t0) (fun _ => false) = electionRun t0 t from rfl,
    hx] at hrun
  rcases hl : lastW t0 t x with _ | b
  · rw [hl] at hrun
    simp at hrun
  · rw [hl] at hrun
    simp at hrun
    rw [hrun]

/-- The only event that writes `true` to `i`'s flag is `i`'s own
settle-window timeout. -/
theorem effect_true_fire {N : Nat} (t0 : Fin N → Nat) (e : ElectionEvent N)
    (i : Fin N) (h : effect t0 e i = some true) :
    e = ElectionEvent.fire i := by
  cases e with
  | fire i' =>
    by_cases hii : i' = i
    · rw [hii]
    · rw [effect, if_neg hii] at h
      exact absurd h (by simp)
  | deliverLeader s r =>
    exfalso
    rw [effect] at h
    split at h <;> simp_all
  | deliverHeartbeat s r =>
    exfalso
    rw [effect] at h
    split at h <;> simp_all
  | deliverResponse s r ts =>
    exfalso
    rw [effect] at h
    split at h <;> simp_all
  | deliverElection s r =>
    exfalso
    rw [effect] at h
    simp at h

/-- C5 (amended): among `N` instances that all run the election over the
shared broadcast channel, once the elections settle (every `leader`
announcement delivered) AT MOST one instance's `isLeader()` returns true.
Exactly one is not guaranteed: see the companion counterexample in which
two concurrent declarations step each other down and zero leaders
remain. -/
theorem electionAtMostOneLeader {N : Nat} (t0 : Fin N → Nat)
    (t : List (ElectionEvent N)) (hv : electionValid t) (i j : Fin N)
    (hi : electionRun t0 t i = true) (hj : electionRun t0 t j = true) :
    i = j := by
  by_contra hne
  have hne' : j ≠ i := fun h => hne h.symm
  obtain ⟨ki, ei, hgi, hei, hafti⟩ :=
    lastW_some_spec t0 t i true (electionRun_true_lastW t0 t i hi)
  obtain ⟨kj, ej, hgj, hej, haftj⟩ :=
    lastW_some_spec t0 t j true (electionRun_true_lastW t0 t j hj)
  have hfi := effect_true_fire t0 ei i hei
  have hfj := effect_true_fire t0 ej j hej
  subst hfi
  subst hfj
  obtain ⟨kd, hkd⟩ := List.get?_of_mem (hv.2.1 j i hne')
  obtain ⟨kd', hkd'⟩ := List.get?_of_mem (hv.2.1 i j hne)
  have heffd : effect t0 (ElectionEvent.deliverLeader j i) i = some false := by
    simp [effect, hne']
  have heffd' : effect t0 (ElectionEvent.deliverLeader i j) j = some false := by
    simp [effect, hne]
  have hdki : kd < ki := by
    rcases Nat.lt_trichotomy kd ki with h | h | h
    · exact h
    · exfalso
      subst h
      rw [hgi] at hkd
      simp at hkd
    · exfalso
      have := hafti kd _ h hkd
      rw [heffd] at this
      simp at this
  have hdkj : kd' < kj := by
    rcases Nat.lt_trichotomy kd' kj with h | h | h
    · exact h
    · exfalso
      subst h
      rw [hgj] at hkd'
      simp at hkd'
    · exfalso
      have := haftj kd' _ h hkd'
      rw [heffd'] at this
      simp at this
  have hbkd : kd < t.length := by
    by_contra hge
    push_neg at hge
    rw [List.get?_eq_none.mpr hge] at hkd
    simp at hkd
  have hbkd' : kd' < t.length := by
    by_contra hge
    push_neg at hge
    rw [List.get?_eq_none.mpr hge] at hkd'
    simp at hkd'
  have hbkj : kj < t.length := by
    by_contra hge
    push_neg at hge
    rw [List.get?_eq_none.mpr hge] at hgj
    simp at hgj
  have hbki : ki < t.length := by
    by_contra hge
    push_neg at hge
    rw [List.get?_eq_none.mpr hge] at hgi
    simp at hgi
  have h1 : kj < kd := hv.2.2.1 j i kd hbkd kj hbkj hkd hgj
  have h2 : ki < kd' := hv.2.2.1 i j kd' hbkd' ki hbki hkd' hgi
  omega

/-- C5 — counterexample to "exactly one": with two instances whose settle
windows both expire before either `leader` announcement is delivered
(both timeouts fire, then the two announcements cross), the trace is a
settled concurrent election, yet both instances end as followers — zero
leaders. -/
theorem electionZeroLeaders :
    electionValid [ElectionEvent.fire (0 : Fin 2), ElectionEvent.fire 1,
      ElectionEvent.deliverLeader 0 1, ElectionEvent.deliverLeader 1 0] ∧
    electionRun (fun _ => 0) [ElectionEvent.fire (0 : Fin 2),
      ElectionEvent.fire 1, ElectionEvent.deliverLeader 0 1,
      ElectionEvent.deliverLeader 1 0] 0 = false ∧
    electionRun (fun _ => 0) [ElectionEvent.fire (0 : Fin 2),
      ElectionEvent.fire 1, ElectionEvent.deliverLeader 0 1,
      ElectionEvent.deliverLeader 1 0] 1 = false := by
  decide

/-- Witness for C5's amended theorem: a serialized election in which
instance 1 ends as the unique leader. -/
theorem electionAtMostOneLeader_witness : (1 : Fin 2) = 1 :=
  electionAtMostOneLeader (fun _ => 0)
    [ElectionEvent.fire (0 : Fin 2), ElectionEvent.deliverLeader 0 1,
     ElectionEvent.fire 1, ElectionEvent.deliverLeader 1 0]
    (by decide) 1 1 (by decide) (by decide)

/-- Witness for C8: with an empty outbox a pulled record is written
unconditionally. -/
theorem applyOne_spec_witness :
    (applyOne none "posts"
        ({ store := fun _ _ => none, outbox := [] }, 0, 0)
        { id := 1, version := none, updatedAt := some 5, data := 9 }).1.store
        "posts" 1 =
      some { id := 1, version := none, updatedAt := some 5, data := 9 } :=
  (applyOne_spec none "posts" { store := fun _ _ => none, outbox := [] } 0 0
    { id := 1, version := none, updatedAt := some 5, data := 9 }).1 rfl
